import Mathlib

/-!
Verification development for the `evalFramework` scoring / report pipeline
(`aad-llm-evaluation-evalFramework(Updated)`).

The pipeline's per-scenario records (Scenario / Answer / Result) are JSON
objects read from and written to flat files.  We embed them shallowly:

* `Val` is a JSON-like value type; Python floats are modelled as exact
  rationals (`ℚ`).
* A record (`Rec`) is a Python dict modelled as an association list with
  first-match lookup; writing a key prepends a binding, so the most recently
  written binding wins, exactly like dict assignment as observed through
  `dict.get` / `[]`.
* External collaborators (the OpenAI embedding endpoint, the DeepEval judge,
  the grounding judge, the `json` module) are modelled as explicit oracle
  parameters; a raised Python exception is an `Except.error`.

Each definition below is translated from the Python source file named in its
doc comment.
-/

namespace EvalFW

/-- JSON-like values (Python `None` / `bool` / number / `str` / `list` /
`dict`).  Numbers are exact rationals. -/
inductive Val where
  | null
  | bool (b : Bool)
  | num (q : ℚ)
  | str (s : String)
  | arr (elems : List Val)
  | obj (fields : List (String × Val))

/-- A Python dict with string keys, as used for Scenario / Answer / Result
records: an association list with first-match lookup. -/
abbrev Rec := List (String × Val)

/-- Association-list lookup (`d.get(k)` / `d[k]` hit): first match wins. -/
def lfind {β : Type} (l : List (String × β)) (k : String) : Option β :=
  (l.find? (fun p => p.1 == k)).map (fun p => p.2)

/-- `r.get(k)` on a record. -/
def rget (r : Rec) (k : String) : Option Val :=
  lfind r k

/-- `r.update(kvs)` / `{**r, k₁: v₁, …}`: write each binding in order; later
bindings shadow earlier ones and everything previously in `r`. -/
def rupdate (r : Rec) (kvs : List (String × Val)) : Rec :=
  kvs.foldl (fun acc kv => kv :: acc) r

/-- Python truthiness of a JSON value (`bool(x)`). -/
def truthy : Val → Bool
  | .null => false
  | .bool b => b
  | .num q => decide (q ≠ 0)
  | .str s => !(s == "")
  | .arr l => !l.isEmpty
  | .obj l => !l.isEmpty

/-- Python `a or b`. -/
def pyOr (a b : Val) : Val :=
  if truthy a then a else b

/-- Python `isinstance(x, (int, float))`.  Note that Python `bool` is a
subclass of `int`, so booleans satisfy this check. -/
def pyIsNum : Val → Bool
  | .num _ => true
  | .bool _ => true
  | _ => false

/-- Numeric value of a Python number (`float(x)`); `True` is `1`, `False` is
`0`.  Only meaningful under `pyIsNum`. -/
def pyFloat : Val → ℚ
  | .num q => q
  | .bool b => if b then 1 else 0
  | _ => 0

/-- `_is_bool` from make_offline_report.py: `x in (True, False)`.  Python
membership uses `==`, and `True == 1`, `False == 0`, so the numbers `0` and
`1` also pass this check. -/
def isBoolPy : Val → Bool
  | .bool _ => true
  | .num q => decide (q = 0) || decide (q = 1)
  | _ => false

/-- Python `x is True` on an optional value (`None` when the key is absent). -/
def isTrueVal : Option Val → Bool
  | some (.bool true) => true
  | _ => false

/-! ### String helpers

Python string methods are modelled over the character list of a `String`,
by structural recursion, so that every definition evaluates inside the
kernel.  The inputs exercised by the pipeline (prompts, column names) are
ASCII, so ASCII lower-casing and ASCII whitespace suffice. -/

/-- ASCII lower-casing of one character (`str.lower` restricted to ASCII). -/
def asciiLower (c : Char) : Char :=
  if 65 ≤ c.toNat ∧ c.toNat ≤ 90 then Char.ofNat (c.toNat + 32) else c

/-- `s.lower()` (ASCII). -/
def lowerStr (s : String) : String :=
  ⟨s.data.map asciiLower⟩

/-- ASCII whitespace, i.e. the characters matched by the regex class `\s`
(space, tab, LF, CR, vertical tab, form feed). -/
def isWS (c : Char) : Bool :=
  c == ' ' || c == '\t' || c == '\n' || c == '\r' ||
    c == Char.ofNat 11 || c == Char.ofNat 12

/-- `s.strip()`: drop leading and trailing whitespace. -/
def strip (s : String) : String :=
  ⟨((s.data.dropWhile isWS).reverse.dropWhile isWS).reverse⟩

/-- Helper for `re.sub(r"\s+", " ", s)`: collapse each maximal run of
whitespace into one space.  The flag records whether the previous character
was whitespace (in which case a space has already been emitted). -/
def collapseAux : List Char → Bool → List Char
  | [], _ => []
  | c :: rest, prevWS =>
    if isWS c then
      if prevWS then collapseAux rest true else ' ' :: collapseAux rest true
    else
      c :: collapseAux rest false

/-- `re.sub(r"\s+", " ", s)`. -/
def collapseWS (s : String) : String :=
  ⟨collapseAux s.data false⟩

/-- Fuel-indexed left-to-right non-overlapping replacement over character
lists; fuel `s.length` is always enough since each step consumes at least
one character. -/
def replFuel (pat rep : List Char) : Nat → List Char → List Char
  | 0, s => s
  | _, [] => []
  | fuel + 1, c :: rest =>
    if pat ≠ [] ∧ pat.isPrefixOf (c :: rest) then
      rep ++ replFuel pat rep fuel ((c :: rest).drop pat.length)
    else
      c :: replFuel pat rep fuel rest

/-- `s.replace(pat, rep)` for a non-empty pattern. -/
def replS (s pat rep : String) : String :=
  ⟨replFuel pat.data rep.data s.data.length s.data⟩

/-- Python `str(x)` for the scalar values the pipeline feeds to it.  The
`arr` / `obj` cases are never exercised by the theorems below (Python would
render its own repr there). -/
def pyStrOf : Val → String
  | .str s => s
  | .null => "None"
  | .bool b => if b then "True" else "False"
  | .num q => toString q
  | .arr _ => "[...]"
  | .obj _ => "[object]"

/-! ### `method_4_rag_quality_from_xlsx.py` — External Metrics Merge -/

/-- `_norm` (method_4_rag_quality_from_xlsx.py:8-14) applied to a string:
replace CR and LF by spaces, strip, collapse whitespace runs.  Note that it
does NOT lower-case. -/
def normText (s : String) : String :=
  collapseWS (strip (replS (replS s "\r" " ") "\n" " "))

/-- `_norm` on an arbitrary cell value: `None` becomes `""`, anything else is
`str(...)`-converted and normalized. -/
def normVal : Val → String
  | .null => ""
  | v => normText (pyStrOf v)

/-- `METRIC_COLUMNS` (method_4_rag_quality_from_xlsx.py:18-44). -/
def METRIC_COLUMNS : List String :=
  ["Contextual Precision_Score",
   "Contextual Recall_Score",
   "Contextual Relevancy_Score",
   "Answer Relevancy_Score",
   "Faithfulness_Score",
   "Hallucination_Score",
   "metric_1",
   "Traceability (GEval)_Score",
   "Contextual Precision_Success",
   "Contextual Recall_Success",
   "Contextual Relevancy_Success",
   "Answer Relevancy_Success",
   "Faithfulness_Success",
   "Hallucination_Success",
   "Traceability (GEval)_Success",
   "Contextual Precision_Reason",
   "Contextual Recall_Reason",
   "Contextual Relevancy_Reason",
   "Answer Relevancy_Reason",
   "Faithfulness_Reason",
   "Hallucination_Reason",
   "Traceability (GEval)_Reason"]

/-- `_to_key` (method_4_rag_quality_from_xlsx.py:47-55): column name to
JSON-friendly key. -/
def toKey (col : String) : String :=
  let k := lowerStr col
  let k := replS k " (geval)" "_geval"
  let k := replS k " " "_"
  let k := replS k "__" "_"
  let k := replS k "(" ""
  let k := replS k ")" ""
  replS k "-" "_"

/-- The metrics XLSX as read by pandas: its column names, and each row as a
column-name-to-value record. -/
structure DFrame where
  columns : List String
  cells : List Rec

/-- A pandas `row.get(col)`: the cell value, `None` when absent. -/
def cellGet (row : Rec) (c : String) : Val :=
  (rget row c).getD Val.null

/-- Payload built for one XLSX row (method_4_rag_quality_from_xlsx.py:91-94):
every `METRIC_COLUMNS` entry present among the columns, keyed by `_to_key`. -/
def payloadOf (cols : List String) (row : Rec) : List (String × Val) :=
  METRIC_COLUMNS.foldr
    (fun c acc => if cols.contains c then (toKey c, cellGet row c) :: acc else acc) []

/-- The lookup `normalized prompt -> payload`
(method_4_rag_quality_from_xlsx.py:85-95); rows with an empty normalized
prompt are skipped, later rows overwrite earlier ones. -/
def buildLookup (df : DFrame) (promptCol : String) : List (String × List (String × Val)) :=
  df.cells.foldl
    (fun lk row =>
      let p := normVal (cellGet row promptCol)
      if p == "" then lk else (p, payloadOf df.columns row) :: lk)
    []

/-- The originating scenario of one result row
(method_4_rag_quality_from_xlsx.py:100-101):
`sc = scenarios.get(sid, {}) if sid else {}`. -/
def mergeScOf (scenarios : List (String × Rec)) (row : Rec) : Rec :=
  let sid := (rget row "id").getD Val.null
  if truthy sid then
    (match sid with
     | .str s => lfind scenarios s
     | _ => none).getD []
  else []

/-- The normalized prompt used to address the lookup for one result row
(method_4_rag_quality_from_xlsx.py:102): the row's own prompt, falling back
to the originating scenario's prompt when falsy. -/
def mergeKey (scenarios : List (String × Rec)) (row : Rec) : String :=
  normVal (pyOr ((rget row "prompt").getD .null)
    (pyOr ((rget (mergeScOf scenarios row) "prompt").getD .null) (.str "")))

/-- Merging one result row (method_4_rag_quality_from_xlsx.py:99-109): on a
miss (or an empty payload) the row is left untouched, otherwise
`row.update(payload)`. -/
def mergeRow (scenarios : List (String × Rec)) (lookup : List (String × List (String × Val)))
    (row : Rec) : Rec :=
  let payload := (lfind lookup (mergeKey scenarios row)).getD []
  if payload.isEmpty then row else rupdate row payload

/-- `run` of method_4_rag_quality_from_xlsx.py (the pure core): fails when
`prompt_col` is not an XLSX column, otherwise merges every row. -/
def mergeRun (scenarios : List (String × Rec)) (df : DFrame) (promptCol : String)
    (rows : List Rec) : Except String (List Rec) :=
  if df.columns.contains promptCol then
    .ok (rows.map (mergeRow scenarios (buildLookup df promptCol)))
  else
    .error "prompt_col not found in XLSX"

/-! ### `method_6_score.py` — Judge Scorer (DeepEval) -/

/-- `_normalize_score` (method_6_score.py:31-43) on a numeric score: scores
above `1.0` are divided by `10`, and the result is clamped to `[0, 1]`. -/
def normalizeScore (s : ℚ) : ℚ :=
  if 1 < s then max 0 (min 1 (s / 10)) else max 0 (min 1 s)

/-- The keys written by the Judge Scorer (method_6_score.py:122-127). -/
def judgeOwnKeys : List String :=
  ["deepeval_score", "deepeval_threshold", "deepeval_passed"]

/-- A `ℚ`-or-`None` as a JSON value. -/
def optNumVal : Option ℚ → Val
  | none => .null
  | some q => .num q

/-- The three bindings written into one row by `run` of method_6_score.py
(lines 97-127).  `outcome` is the `metric.measure` call: `.error` when it
raises (the try/except at lines 112-120 then leaves score and passed as
`None`), `.ok s` when it succeeds with `metric.score = s` (`none` when that
attribute is `None` or non-numeric, in which case `_normalize_score` returns
`None`).  Rows with a falsy reference also get `None` score/passed.  Note the
threshold is written in every case. -/
def judgeFieldsOf (scenarios : List (String × Rec)) (threshold : ℚ)
    (outcome : Except Unit (Option ℚ)) (r : Rec) : List (String × Val) :=
  let sid : Val := (rget r "id").getD (.str "")
  let sc : Rec :=
    (match sid with
     | .str s => lfind scenarios s
     | _ => none).getD []
  let reference := pyOr ((rget r "reference").getD .null) ((rget sc "reference").getD .null)
  if truthy reference then
    match outcome with
    | .error _ =>
      [("deepeval_score", Val.null), ("deepeval_threshold", Val.num threshold),
       ("deepeval_passed", Val.null)]
    | .ok s =>
      let ds := s.map normalizeScore
      let dp : Bool :=
        match ds with
        | none => false
        | some q => decide (threshold ≤ q)
      [("deepeval_score", optNumVal ds), ("deepeval_threshold", Val.num threshold),
       ("deepeval_passed", Val.bool dp)]
  else
    [("deepeval_score", Val.null), ("deepeval_threshold", Val.num threshold),
     ("deepeval_passed", Val.null)]

/-- One row of `run` in method_6_score.py (lines 97-128):
`row2 = {**r, "deepeval_score": …, "deepeval_threshold": …,
"deepeval_passed": …}`.  The prompt/answer fed to the judge only influence
`outcome`, which is an oracle here. -/
def judgeRow (scenarios : List (String × Rec)) (threshold : ℚ)
    (outcome : Except Unit (Option ℚ)) (r : Rec) : Rec :=
  rupdate r (judgeFieldsOf scenarios threshold outcome r)

/-- The full loop of `run` in method_6_score.py: a per-row judge failure is
caught inside the row (try/except at lines 112-120), so every row survives
and the run never aborts. -/
def judgeRun (scenarios : List (String × Rec)) (threshold : ℚ)
    (outcomes : Nat → Except Unit (Option ℚ)) (rows : List Rec) : List Rec :=
  rows.mapIdx (fun i r => judgeRow scenarios threshold (outcomes i) r)

/-! ### `method_7_hallucination_tracebility.py` — Grounding Judge -/

/-- `_as_bool` (method_7_hallucination_tracebility.py:47-56). -/
def asBool : Val → Option Bool
  | .bool b => some b
  | .str s =>
    let t := lowerStr (strip s)
    if t == "true" || t == "yes" || t == "y" || t == "1" then some true
    else if t == "false" || t == "no" || t == "n" || t == "0" then some false
    else none
  | _ => none

/-- A `Bool`-or-`None` as a JSON value. -/
def oboolVal : Option Bool → Val
  | none => .null
  | some b => .bool b

/-- The observable result of one `judge_hallucination_traceability` call
(method_7_hallucination_tracebility.py:80-125) that returned: `data` is the
dict produced by `_extract_json` (empty on parse failure, which is how a
`ParseFailure` degrades to absent fields), plus the measured latency and the
judge model name. -/
structure RawJ where
  data : Rec
  latencyMs : ℚ
  modelName : String

/-- `(data.get(k) or "").strip()` for the reason fields.  (A truthy non-string
reason would raise `AttributeError` in the source; that corner is not
exercised by any theorem below.) -/
def reasonStr (v : Val) : String :=
  match pyOr v (.str "") with
  | .str s => strip s
  | w => strip (pyStrOf w)

/-- The six keys written into a judged row
(method_7_hallucination_tracebility.py:118-125). -/
def gjFields (j : RawJ) : List (String × Val) :=
  [("hallucination_success", oboolVal (asBool (cellGet j.data "hallucination_success"))),
   ("hallucination_reason", .str (reasonStr (cellGet j.data "hallucination_reason"))),
   ("traceability_geval_success", oboolVal (asBool (cellGet j.data "traceability_geval_success"))),
   ("traceability_geval_reason", .str (reasonStr (cellGet j.data "traceability_geval_reason"))),
   ("judge_latency_ms", .num j.latencyMs),
   ("judge_model", .str j.modelName)]

/-- The keys written by the Grounding Judge. -/
def groundOwnKeys : List String :=
  ["hallucination_success", "hallucination_reason", "traceability_geval_success",
   "traceability_geval_reason", "judge_latency_ms", "judge_model"]

/-- One row of `run` in method_7_hallucination_tracebility.py (lines 150-160),
given a successful judge call: rows with falsy reference or falsy answer are
skipped, the rest are updated in place with the six judge fields. -/
def groundRow (j : RawJ) (r : Rec) : Rec :=
  let expected := (rget r "reference").getD (.str "")
  let answer := (rget r "answer").getD (.str "")
  if truthy expected && truthy answer then rupdate r (gjFields j) else r

/-- The full loop of `run` in method_7_hallucination_tracebility.py
(lines 149-160).  `call i` is the `judge_hallucination_traceability` call for
row `i`: `.error` models a raised provider exception.  There is NO try/except
around the call in the source, so an error propagates and ends the whole
run. -/
def groundingRun (call : Nat → Except Unit RawJ) : Nat → List Rec → Except Unit (List Rec)
  | _, [] => .ok []
  | i, r :: rest =>
    let expected := (rget r "reference").getD (.str "")
    let answer := (rget r "answer").getD (.str "")
    if truthy expected && truthy answer then
      match call i with
      | .error e => .error e
      | .ok j =>
        match groundingRun call (i + 1) rest with
        | .error e => .error e
        | .ok out => .ok (rupdate r (gjFields j) :: out)
    else
      match groundingRun call (i + 1) rest with
      | .error e => .error e
      | .ok out => .ok (r :: out)

/-! ### `method_4_score_embeddings.py` — Similarity Scorer -/

/-- One answer record scored by `run` of method_4_score_embeddings.py
(lines 65-86).  `simOf i` abstracts `cosine(embed(answer), embed(reference))`
for row `i` (the two OpenAI embedding calls).  The unguarded
`scenarios[a["id"]]` subscript raises `KeyError` (modelled as `.error`) when
the answer's id has no scenario, or when the answer has no id at all. -/
def scoreRow (scenarios : List (String × Rec)) (simOf : Nat → ℚ) (threshold : ℚ)
    (i : Nat) (a : Rec) : Except String Rec :=
  match rget a "id" with
  | some (.str sid) =>
    match lfind scenarios sid with
    | none => .error ("KeyError: " ++ sid)
    | some sc =>
      let refV := (rget sc "reference").getD .null
      let promptV := (rget sc "prompt").getD (.str "")
      if truthy refV then
        let sim := simOf i
        .ok (rupdate a
          [("prompt", promptV), ("reference", refV), ("similarity", .num sim),
           ("threshold", .num threshold), ("passed", .bool (decide (threshold ≤ sim)))])
      else
        .ok (rupdate a
          [("prompt", promptV), ("reference", refV), ("similarity", Val.null),
           ("threshold", .num threshold), ("passed", Val.null)])
  | _ => .error "KeyError: id"

/-- The full loop of `run` in method_4_score_embeddings.py (lines 65-86): rows
are scored in order and the first `KeyError` aborts the whole run. -/
def scoreRun (scenarios : List (String × Rec)) (simOf : Nat → ℚ) (threshold : ℚ) :
    Nat → List Rec → Except String (List Rec)
  | _, [] => .ok []
  | i, a :: rest =>
    match scoreRow scenarios simOf threshold i a with
    | .error e => .error e
    | .ok row =>
      match scoreRun scenarios simOf threshold (i + 1) rest with
      | .error e => .error e
      | .ok out => .ok (row :: out)

/-- Precondition under which `scoreRow` cannot raise: the record has a string
id with a matching scenario. -/
def idOk (scenarios : List (String × Rec)) (a : Rec) : Prop :=
  ∃ sid sc, rget a "id" = some (Val.str sid) ∧ lfind scenarios sid = some sc

/-! ### `make_offline_report.py` — Report Aggregator -/

/-- `_p95` (make_offline_report.py:28-34): nearest-rank 95th percentile.  The
source computes `int(math.ceil(0.95 * n)) - 1`; for every list length the
float product rounds to the exact value, so the rank is modelled exactly as
`⌈19n/20⌉ = (19n + 19) / 20` in `ℕ`.  The lower clamp `max(0, ·)` of the
source is vacuous in `ℕ`. -/
def p95 (values : List ℚ) : Option ℚ :=
  if values.isEmpty then none
  else
    let v := values.mergeSort (fun a b => decide (a ≤ b))
    let idx := min ((19 * values.length + 19) / 20 - 1) (v.length - 1)
    v[idx]?

/-- The sort key of `worst_rows` (make_offline_report.py:236-238): the
similarity as a float when it is a number, else `1.0`. -/
def simKey (r : Rec) : ℚ :=
  match rget r "similarity" with
  | some v => if pyIsNum v then pyFloat v else 1
  | none => 1

/-- `worst_rows` (make_offline_report.py:234-239): stable sort by `simKey`
ascending (Python `sorted` is stable, as is `List.mergeSort`), then the first
`n` rows. -/
def worstRows (rows : List Rec) (n : Nat) : List Rec :=
  (rows.mergeSort (fun a b => decide (simKey a ≤ simKey b))).take n

/-- Whether a row has a numeric similarity (the comprehension filter of
make_offline_report.py:117). -/
def hasNumSim (r : Rec) : Bool :=
  match rget r "similarity" with
  | some v => pyIsNum v
  | none => false

/-- The numeric similarities of a row collection
(make_offline_report.py:117). -/
def simsOf (rows : List Rec) : List ℚ :=
  rows.filterMap (fun r =>
    match rget r "similarity" with
    | some v => if pyIsNum v then some (pyFloat v) else none
    | none => none)

/-- The value record returned by `kpi_embeddings`. -/
structure EmbKpi where
  avg : Option ℚ
  p95v : Option ℚ
  maxv : Option ℚ
  passRate : Option ℚ
  scored : Nat
  deriving DecidableEq

/-- `kpi_embeddings` (make_offline_report.py:116-126): mean / p95 / max of
the numeric similarities, and pass rate over rows whose `passed` satisfies
`_is_bool`, counting rows with `passed is True`. -/
def kpiEmbeddings (rows : List Rec) : EmbKpi :=
  let sims := simsOf rows
  let denom := rows.countP (fun r => isBoolPy ((rget r "passed").getD .null))
  let passedCnt := rows.countP (fun r => isTrueVal (rget r "passed"))
  { avg := if sims.isEmpty then none else some (sims.sum / sims.length)
    p95v := if sims.isEmpty then none else p95 sims
    maxv :=
      match sims with
      | [] => none
      | x :: xs => some (xs.foldl max x)
    passRate := if denom == 0 then none else some ((passedCnt : ℚ) / denom)
    scored := sims.length }

/-! ### Scenario Builders -/

/-- A canonical Scenario record as written by from_expected_and_answer.py. -/
structure Scenario where
  id : String
  prompt : String
  reference : String
  deriving DecidableEq

/-- One input row of from_expected_and_answer.py after column resolution:
the raw prompt / expected / answer cell texts (`str(...)` applied). -/
structure QRow where
  prompt : String
  expected : String
  answer : String
  deriving DecidableEq

/-- One step of the scenarios/responses loop of from_expected_and_answer.py
(lines 62-72): rows whose stripped prompt is empty are skipped, the rest get
the sequential synthetic id `Q_<len(scenarios)+1>`. -/
def buildQStep (acc : List Scenario × List Rec) (row : QRow) : List Scenario × List Rec :=
  let prompt := strip row.prompt
  if prompt == "" then acc
  else
    let sid := "Q_" ++ toString (acc.1.length + 1)
    (acc.1 ++ [⟨sid, prompt, strip row.expected⟩],
     acc.2 ++ [[("id", Val.str sid), ("answer", Val.str (strip row.answer))]])

/-- The scenarios/responses pair built by from_expected_and_answer.py
(lines 59-72). -/
def buildQ (rows : List QRow) : List Scenario × List Rec :=
  rows.foldl buildQStep ([], [])

/-- The scenario list built by from_expected_and_answer.py. -/
def buildScenariosQ (rows : List QRow) : List Scenario :=
  (buildQ rows).1

/-- One input row of method_1_xlsx_to_json.py: the optional raw id cell
(column `No.`), and the prompt / reference cell texts (`str(...)` applied,
before `.strip()`). -/
structure M1Row where
  rawId : Option Val
  prompt : String
  reference : String

/-- One scenario of method_1_xlsx_to_json.py (lines 13-23): id
`MCP_<row.get("No.", i+1)>`; note that NO row is skipped, whatever its
prompt. -/
def mcpScenario (sheet : String) (i : Nat) (row : M1Row) : Rec :=
  [("id", Val.str ("MCP_" ++
     (match row.rawId with
      | some v => pyStrOf v
      | none => toString (i + 1)))),
   ("prompt", Val.str (strip row.prompt)),
   ("reference", Val.str (strip row.reference)),
   ("metadata", Val.obj [("sheet", Val.str sheet), ("row", Val.num i)])]

/-- The scenario list built by `run` of method_1_xlsx_to_json.py. -/
def buildScenariosMCP (sheet : String) (rows : List M1Row) : List Rec :=
  rows.mapIdx (mcpScenario sheet)

/-! ### `method_3_run_model.py` — DataIKU answer extraction -/

/-- The `docs` loop of `_extract_dataiku_text`
(method_3_run_model.py:128-133) over `matches[:5]`: `m.get("document")` on a
non-dict match, or `.strip()` on a truthy non-string document, raises
`AttributeError` (modelled as `.error`). -/
def docsOf : List Val → Except String (List String)
  | [] => .ok []
  | m :: rest =>
    match m with
    | .obj mf =>
      match pyOr ((lfind mf "document").getD .null) (.str "") with
      | .str ds =>
        match docsOf rest with
        | .error e => .error e
        | .ok tail =>
          let d := strip ds
          .ok (if d == "" then tail else d :: tail)
      | _ => .error "AttributeError"
    | _ => .error "AttributeError"

/-- `_extract_dataiku_text` (method_3_run_model.py:100-140).  `parse`
abstracts `json.loads` (`none` when it raises), `dumps` abstracts
`json.dumps`.  The try/except covers ONLY the two `json.loads` calls
(lines 116-123); `j.get("matches")` at line 126 is outside it, so a decoded
body that is not a dict raises `AttributeError` (modelled as `.error`). -/
def extractDataikuText (parse : String → Option Val) (dumps : Val → String)
    (resp : Val) : Except String String :=
  match resp with
  | .null => .ok ""
  | .str s => .ok s
  | .obj fields =>
    match (lfind fields "body").getD (.str "") with
    | .str bs =>
      match parse bs with
      | none => .ok bs
      | some unq =>
        let jOpt : Option Val :=
          match unq with
          | .str us => parse us
          | v => some v
        match jOpt with
        | none => .ok bs
        | some j =>
          match j with
          | .obj jf =>
            match (lfind jf "matches").getD .null with
            | .arr ms =>
              if ms.isEmpty then .ok (dumps j)
              else
                match docsOf (ms.take 5) with
                | .error e => .error e
                | .ok docs =>
                  .ok (if docs.isEmpty then dumps j else String.intercalate "\n\n" docs)
            | _ => .ok (dumps j)
          | _ => .error "AttributeError"
    | _ => .ok (dumps resp)
  | other => .ok (pyStrOf other)

/-! ### Enrichment stages as one type (for the merge invariant) -/

/-- An enrichment stage applied to one Result record, with its external
inputs (scenario map, threshold, oracle outcomes, metrics spreadsheet)
bundled in. -/
inductive Stage where
  | judge (scenarios : List (String × Rec)) (threshold : ℚ) (outcome : Except Unit (Option ℚ))
  | grounding (j : RawJ)
  | metricsMerge (scenarios : List (String × Rec)) (df : DFrame) (promptCol : String)

/-- The keys a stage owns, i.e. the exact key set it ever writes. -/
def Stage.ownKeys : Stage → List String
  | .judge _ _ _ => judgeOwnKeys
  | .grounding _ => groundOwnKeys
  | .metricsMerge _ _ _ => METRIC_COLUMNS.map toKey

/-- Running a stage on one Result record. -/
def Stage.applyRow : Stage → Rec → Rec
  | .judge scen t oc, r => judgeRow scen t oc r
  | .grounding j, r => groundRow j r
  | .metricsMerge scen df c, r => mergeRow scen (buildLookup df c) r

/-! ### Concrete inputs used by counterexamples and witnesses -/

/-- A Result row with non-empty reference and answer (so the Grounding Judge
issues a call for it). -/
def gRowBad : Rec :=
  [("id", Val.str "Q_1"), ("reference", Val.str "4"), ("answer", Val.str "5")]

/-- A second well-formed Result row, following `gRowBad` in the stream. -/
def gRowGood : Rec :=
  [("id", Val.str "Q_2"), ("reference", Val.str "6"), ("answer", Val.str "6")]

/-- A row without a similarity score. -/
def noSimRow (i : Nat) : Rec :=
  [("id", Val.str ("N" ++ toString i))]

/-- A scored row whose similarity is exactly `1.0` (e.g. answer identical to
the reference, the spec's own end-to-end example). -/
def simOneRow (i : Nat) : Rec :=
  [("id", Val.str ("S" ++ toString i)), ("similarity", Val.num 1)]

/-- 15 rows: 3 without a similarity score followed by 12 scored rows, all
scored at similarity `1.0`. -/
def cexRows : List Rec :=
  [noSimRow 1, noSimRow 2, noSimRow 3] ++ (List.range 12).map simOneRow

/-- A scored row with similarity `0`. -/
def zRow : Rec :=
  [("similarity", Val.num 0)]

/-- Ten rows scored strictly below `1.0`. -/
def zeroSimRows : List Rec :=
  List.replicate 10 zRow

/-- A metrics spreadsheet whose prompt cell is `"A"` (upper case) with one
metric column. -/
def c4df : DFrame :=
  ⟨["Input", "metric_1"], [[("Input", Val.str "A"), ("metric_1", Val.num 1)]]⟩

/-- A result row whose prompt is `"a"` (lower case). -/
def c4row : Rec :=
  [("id", Val.str "Q_1"), ("prompt", Val.str "a")]

/-- A result collection whose only prompt is `"a"` (lower case). -/
def c4rows : List Rec :=
  [c4row]

/-- The normalization the claim describes — lowercase, collapsed whitespace,
newlines stripped.  Stated from the spec's words, only for comparison with
the source's `_norm` (`normText`), which does not lower-case. -/
def claimNormLower (s : String) : String :=
  lowerStr (normText s)

/-- The two tabular input rows of the claim's end-to-end example, fed to the
MCP builder (method_1_xlsx_to_json.py) with no raw id cell. -/
def mcpRows2 : List M1Row :=
  [⟨none, "2+2?", "4"⟩, ⟨none, "", "x"⟩]

/-- A `json.loads` stub that decodes the body `"5"` to the number `5`
(exactly what Python's `json` module does). -/
def parseStub : String → Option Val :=
  fun s => if s == "5" then some (Val.num 5) else none

/-- A `json.dumps` stub (its output is irrelevant to the failing path). -/
def dumpsStub : Val → String :=
  fun _ => ""

/-- A one-scenario canonical map for the Similarity Scorer examples. -/
def c10scen : List (String × Rec) :=
  [("Q_1", [("reference", Val.str "4"), ("prompt", Val.str "2+2?")])]

end EvalFW

/-! ## Helper lemmas -/

namespace EvalFW

theorem rget_cons (k k' : String) (v : Val) (r : Rec) :
    rget ((k', v) :: r) k = if k' == k then some v else rget r k := by
  cases h : k' == k with
  | true => simp [rget, lfind, List.find?_cons, h]
  | false => simp [rget, lfind, List.find?_cons, h]

theorem rget_rupdate_not_mem (r : Rec) (kvs : List (String × Val)) (k : String)
    (h : ∀ p ∈ kvs, p.1 ≠ k) : rget (rupdate r kvs) k = rget r k := by
  induction kvs generalizing r with
  | nil => rfl
  | cons kv rest ih =>
    have h1 : kv.1 ≠ k := h kv (by simp)
    have hrec : rupdate r (kv :: rest) = rupdate (kv :: r) rest := rfl
    rw [hrec, ih (kv :: r) (fun p hp => h p (by simp [hp]))]
    cases kv with
    | mk k' v =>
      rw [rget_cons]
      simp only [beq_eq_false_iff_ne.mpr h1]
      simp

theorem judgeFieldsOf_keys (scen : List (String × Rec)) (t : ℚ)
    (oc : Except Unit (Option ℚ)) (r : Rec) :
    (judgeFieldsOf scen t oc r).map Prod.fst = judgeOwnKeys := by
  simp only [judgeFieldsOf]
  cases oc <;> split <;> simp [judgeOwnKeys]

theorem gjFields_keys (j : RawJ) : (gjFields j).map Prod.fst = groundOwnKeys := rfl

theorem payload_foldr_mem (cols : List String) (row : Rec) :
    ∀ (mcs : List String) (p : String × Val),
      p ∈ mcs.foldr
        (fun c acc => if cols.contains c then (toKey c, cellGet row c) :: acc else acc) [] →
      p.1 ∈ mcs.map toKey := by
  intro mcs
  induction mcs with
  | nil => intro p hp; simp at hp
  | cons c rest ih =>
    intro p hp
    rw [List.foldr_cons] at hp
    by_cases hc : cols.contains c = true
    · rw [if_pos hc] at hp
      rcases List.mem_cons.mp hp with h | h
      · subst h; simp
      · exact List.mem_cons_of_mem _ (ih p h)
    · rw [if_neg hc] at hp
      exact List.mem_cons_of_mem _ (ih p hp)

theorem payloadOf_keys (cols : List String) (row : Rec) (p : String × Val)
    (hp : p ∈ payloadOf cols row) : p.1 ∈ METRIC_COLUMNS.map toKey :=
  payload_foldr_mem cols row METRIC_COLUMNS p hp

theorem buildLookup_mem_aux (cols : List String) (promptCol : String) :
    ∀ (cells : List Rec) (acc : List (String × List (String × Val)))
      (e : String × List (String × Val)),
      e ∈ cells.foldl
        (fun lk row =>
          let p := normVal (cellGet row promptCol)
          if p == "" then lk else (p, payloadOf cols row) :: lk) acc →
      e ∈ acc ∨ ∃ row ∈ cells,
        e = (normVal (cellGet row promptCol), payloadOf cols row) ∧
          ¬ normVal (cellGet row promptCol) = "" := by
  intro cells
  induction cells with
  | nil => intro acc e he; exact Or.inl he
  | cons row rest ih =>
    intro acc e he
    rw [List.foldl_cons] at he
    rcases ih _ e he with hacc | ⟨r2, hr2, he2⟩
    · by_cases hp : (normVal (cellGet row promptCol) == "") = true
      · simp only [hp, if_true] at hacc
        exact Or.inl hacc
      · simp only [hp] at hacc
        simp only [Bool.false_eq_true, if_false] at hacc
        rcases List.mem_cons.mp hacc with h | h
        · exact Or.inr ⟨row, List.mem_cons_self _ _, h, by simpa using hp⟩
        · exact Or.inl h
    · exact Or.inr ⟨r2, List.mem_cons_of_mem _ hr2, he2⟩

theorem buildLookup_payload (df : DFrame) (c : String) (key : String)
    (pl : List (String × Val)) (h : lfind (buildLookup df c) key = some pl) :
    ∃ row, pl = payloadOf df.columns row := by
  unfold lfind at h
  cases hf : (buildLookup df c).find? (fun p => p.1 == key) with
  | none => rw [hf] at h; simp at h
  | some e =>
    rw [hf] at h
    simp at h
    have he : e ∈ buildLookup df c := List.mem_of_find?_eq_some hf
    rcases buildLookup_mem_aux df.columns c df.cells [] e he with h0 | ⟨row, _, herow, _⟩
    · simp at h0
    · refine ⟨row, ?_⟩
      rw [← h, herow]

theorem hasNumSim_of_simKey_lt_one (r : Rec) (h : simKey r < 1) : hasNumSim r = true := by
  unfold simKey at h
  unfold hasNumSim
  cases hv : rget r "similarity" with
  | none =>
    rw [hv] at h
    have h' : (1 : ℚ) < 1 := h
    exact absurd h' (lt_irrefl 1)
  | some v =>
    show pyIsNum v = true
    by_cases hn : pyIsNum v = true
    · exact hn
    · exfalso
      rw [hv] at h
      have h' : (if pyIsNum v = true then pyFloat v else 1) < 1 := h
      rw [if_neg hn] at h'
      exact absurd h' (lt_irrefl 1)

end EvalFW

/-! ## Claims -/

namespace EvalFW

/-- C1.  Every enrichment stage (Judge Scorer, Grounding Judge, External
Metrics Merge) is a non-destructive field union on each Result record: it
only ever writes its own keys (the Judge Scorer's three `deepeval_*` keys,
the Grounding Judge's six judgment keys, the External Metrics Merge's
normalized metric-column keys), so every key outside that owned set has a
bit-identical value after the stage runs. -/
theorem c1_enrichment_stage_frame (st : Stage) (r : Rec) (k : String)
    (hk : k ∉ st.ownKeys) : rget (st.applyRow r) k = rget r k := by
  cases st with
  | judge scen t oc =>
    apply rget_rupdate_not_mem
    intro p hp hpk
    have hmem : p.1 ∈ judgeOwnKeys := by
      rw [← judgeFieldsOf_keys scen t oc r]
      exact List.mem_map_of_mem _ hp
    rw [hpk] at hmem
    exact hk hmem
  | grounding j =>
    show rget (groundRow j r) k = rget r k
    simp only [groundRow]
    split
    · apply rget_rupdate_not_mem
      intro p hp hpk
      have hmem : p.1 ∈ groundOwnKeys := by
        rw [← gjFields_keys j]
        exact List.mem_map_of_mem _ hp
      rw [hpk] at hmem
      exact hk hmem
    · rfl
  | metricsMerge scen df c =>
    show rget (mergeRow scen (buildLookup df c) r) k = rget r k
    simp only [mergeRow]
    cases hl : lfind (buildLookup df c) (mergeKey scen r) with
    | none => simp [hl]
    | some pl =>
      simp only [hl, Option.getD_some]
      by_cases hemp : pl.isEmpty = true
      · rw [if_pos hemp]
      · rw [if_neg hemp]
        apply rget_rupdate_not_mem
        intro p hp hpk
        rcases buildLookup_payload df c _ pl hl with ⟨row, hrow⟩
        have hmem : p.1 ∈ METRIC_COLUMNS.map toKey :=
          payloadOf_keys df.columns row p (by rw [← hrow]; exact hp)
        rw [hpk] at hmem
        exact hk hmem

/-- Witness for C1 at a concrete stage, record and key. -/
theorem c1_enrichment_stage_frame_witness :
    "id" ∉ (Stage.judge [] 1 (Except.error ())).ownKeys ∧
      rget ((Stage.judge [] 1 (Except.error ())).applyRow gRowBad) "id" = rget gRowBad "id" :=
  ⟨by decide, c1_enrichment_stage_frame (Stage.judge [] 1 (Except.error ())) gRowBad "id"
    (by decide)⟩

/-- C2 counterexample.  The claim says a per-row judge failure is never
propagated and subsequent rows are still processed; but in the Grounding
Judge (method_7_hallucination_tracebility.py, `run`, lines 150-160) the judge
call is NOT wrapped in try/except, so when the call for the first row raises,
the whole run aborts with that exception and the second (well-formed) row is
never processed. -/
theorem c2_grounding_abort_counterexample :
    groundingRun (fun _ => Except.error ()) 0 [gRowBad, gRowGood] = Except.error () := rfl

/-- C2 (amended).  In the Judge Scorer (method_6_score.py) a per-row judge
failure is contained: every row survives (the output has one row per input
row), a failing row gets `deepeval_score = deepeval_passed = None` and all
its non-owned keys are bit-identical.  In the Grounding Judge
(method_7_hallucination_tracebility.py) only response-parse failures are
recovered; a raised judge call on a judged row propagates and aborts the
whole run. -/
theorem c2_error_containment_amended :
    (∀ scen t oc (rows : List Rec), (judgeRun scen t oc rows).length = rows.length) ∧
    (∀ scen t (r : Rec),
       rget (judgeRow scen t (Except.error ()) r) "deepeval_score" = some Val.null ∧
       rget (judgeRow scen t (Except.error ()) r) "deepeval_passed" = some Val.null ∧
       ∀ k, k ∉ judgeOwnKeys → rget (judgeRow scen t (Except.error ()) r) k = rget r k) ∧
    (∀ call i (r : Rec) rest,
       (truthy ((rget r "reference").getD (.str "")) &&
         truthy ((rget r "answer").getD (.str ""))) = true →
       call i = Except.error () →
       groundingRun call i (r :: rest) = Except.error ()) := by
  refine ⟨?_, ?_, ?_⟩
  · intro scen t oc rows
    simp [judgeRun]
  · intro scen t r
    have hfields : judgeFieldsOf scen t (Except.error ()) r =
        [("deepeval_score", Val.null), ("deepeval_threshold", Val.num t),
         ("deepeval_passed", Val.null)] := by
      simp only [judgeFieldsOf]
      split <;> rfl
    refine ⟨?_, ?_, ?_⟩
    · rw [show judgeRow scen t (Except.error ()) r = rupdate r (judgeFieldsOf scen t (Except.error ()) r) from rfl, hfields]
      simp [rupdate, rget_cons]
    · rw [show judgeRow scen t (Except.error ()) r = rupdate r (judgeFieldsOf scen t (Except.error ()) r) from rfl, hfields]
      simp [rupdate, rget_cons]
    · intro k hk
      apply rget_rupdate_not_mem
      intro p hp hpk
      have hmem : p.1 ∈ judgeOwnKeys := by
        rw [← judgeFieldsOf_keys scen t (Except.error ()) r]
        exact List.mem_map_of_mem _ hp
      rw [hpk] at hmem
      exact hk hmem
  · intro call i r rest hcond hcall
    simp [groundingRun, hcond, hcall]

/-- Witness for C2 (amended) at concrete inputs. -/
theorem c2_error_containment_amended_witness :
    (judgeRun [] 1 (fun _ => Except.error ()) [gRowBad]).length = 1 ∧
      groundingRun (fun _ => Except.error ()) 0 [gRowGood] = Except.error () :=
  ⟨c2_error_containment_amended.1 [] 1 (fun _ => Except.error ()) [gRowBad],
   c2_error_containment_amended.2.2 (fun _ => Except.error ()) 0 gRowGood [] (by rfl) rfl⟩

/-- C5.  In the Similarity Scorer, for an answer whose scenario reference is
truthy (non-empty), the produced row has `similarity` set to the computed
score and `passed = (similarity >= threshold)`; when the reference is falsy
(empty or absent), `similarity` and `passed` are written as JSON null (not
`false`, not `0`), and `kpi_embeddings` excludes such a row from every
aggregate (the row changes neither the similarity statistics, the pass-rate
numerator or denominator, nor the scored count). -/
theorem c5_similarity_passed :
    (∀ scen simOf (t : ℚ) i (a : Rec) sid sc,
        rget a "id" = some (Val.str sid) → lfind scen sid = some sc →
        truthy ((rget sc "reference").getD .null) = true →
        ∃ row, scoreRow scen simOf t i a = .ok row ∧
          rget row "similarity" = some (Val.num (simOf i)) ∧
          rget row "passed" = some (Val.bool (decide (t ≤ simOf i)))) ∧
    (∀ scen simOf (t : ℚ) i (a : Rec) sid sc,
        rget a "id" = some (Val.str sid) → lfind scen sid = some sc →
        truthy ((rget sc "reference").getD .null) = false →
        ∃ row, scoreRow scen simOf t i a = .ok row ∧
          rget row "similarity" = some Val.null ∧
          rget row "passed" = some Val.null) ∧
    (∀ (rows : List Rec) (row : Rec),
        rget row "similarity" = some Val.null → rget row "passed" = some Val.null →
        kpiEmbeddings (rows ++ [row]) = kpiEmbeddings rows) := by
  refine ⟨?_, ?_, ?_⟩
  · intro scen simOf t i a sid sc hid hsc href
    have hrow : scoreRow scen simOf t i a = .ok (rupdate a
        [("prompt", (rget sc "prompt").getD (Val.str "")),
         ("reference", (rget sc "reference").getD Val.null),
         ("similarity", Val.num (simOf i)),
         ("threshold", Val.num t),
         ("passed", Val.bool (decide (t ≤ simOf i)))]) := by
      simp only [scoreRow, hid, hsc, href, if_true]
    refine ⟨_, hrow, ?_, ?_⟩
    · simp [rupdate, rget_cons]
    · simp [rupdate, rget_cons]
  · intro scen simOf t i a sid sc hid hsc href
    have hrow : scoreRow scen simOf t i a = .ok (rupdate a
        [("prompt", (rget sc "prompt").getD (Val.str "")),
         ("reference", (rget sc "reference").getD Val.null),
         ("similarity", Val.null),
         ("threshold", Val.num t),
         ("passed", Val.null)]) := by
      simp only [scoreRow, hid, hsc, href, Bool.false_eq_true, if_false]
    refine ⟨_, hrow, ?_, ?_⟩
    · simp [rupdate, rget_cons]
    · simp [rupdate, rget_cons]
  · intro rows row hsim hp
    simp [kpiEmbeddings, simsOf, List.filterMap_append, List.countP_append,
      hsim, hp, pyIsNum, isBoolPy, isTrueVal]

/-- Witness for C5 at concrete inputs (both branches and the exclusion). -/
theorem c5_similarity_passed_witness :
    (∃ row, scoreRow c10scen (fun _ => 1) 1 0 [("id", Val.str "Q_1")] = .ok row ∧
       rget row "similarity" = some (Val.num 1) ∧
       rget row "passed" = some (Val.bool (decide ((1 : ℚ) ≤ 1)))) ∧
      kpiEmbeddings ([] ++ [[("similarity", Val.null), ("passed", Val.null)]]) =
        kpiEmbeddings [] :=
  ⟨c5_similarity_passed.1 c10scen (fun _ => 1) 1 0 [("id", Val.str "Q_1")] "Q_1"
      [("reference", Val.str "4"), ("prompt", Val.str "2+2?")] rfl rfl rfl,
   c5_similarity_passed.2.2 [] [("similarity", Val.null), ("passed", Val.null)] rfl rfl⟩

/-- C6 counterexample.  The claim states that normalizing any already-
normalized score `s ≤ 1.0` returns it unchanged; but `_normalize_score`
clamps to `[0, 1]`, so the score `-1.0` (which is `≤ 1.0`) becomes `0.0`,
not `-1.0`. -/
theorem c6_normalize_counterexample :
    normalizeScore (-1) = 0 ∧ ¬ normalizeScore (-1) = -1 ∧ ((-1 : ℚ) ≤ 1) := by
  refine ⟨?_, ?_, by norm_num⟩
  · norm_num [normalizeScore]
  · norm_num [normalizeScore]

/-- C6 (amended).  `_normalize_score` divides by 10 when the raw score
exceeds `1.0` and clamps that result to `[0, 1]`; its output always lies in
`[0, 1]`; a score already in `[0, 1]` is returned unchanged (so idempotence
holds on `[0, 1]`, though not for negative scores, which are clamped to 0);
and normalizing `8.0` yields `0.8`. -/
theorem c6_normalize_amended :
    (∀ s : ℚ, 1 < s → normalizeScore s = max 0 (min 1 (s / 10))) ∧
    (∀ s : ℚ, 0 ≤ normalizeScore s ∧ normalizeScore s ≤ 1) ∧
    (∀ s : ℚ, 0 ≤ s → s ≤ 1 → normalizeScore s = s) ∧
    normalizeScore 8 = 0.8 := by
  refine ⟨?_, ?_, ?_, ?_⟩
  · intro s hs
    rw [normalizeScore, if_pos hs]
  · intro s
    unfold normalizeScore
    split
    · constructor
      · exact le_max_left 0 _
      · exact max_le (by norm_num) (min_le_left 1 _)
    · constructor
      · exact le_max_left 0 _
      · exact max_le (by norm_num) (min_le_left 1 _)
  · intro s h0 h1
    rw [normalizeScore, if_neg (by linarith), min_eq_right h1, max_eq_right h0]
  · norm_num [normalizeScore]

/-- Witness for C6 (amended) at concrete inputs. -/
theorem c6_normalize_amended_witness :
    normalizeScore 2 = max 0 (min 1 (2 / 10)) ∧ normalizeScore 1 = 1 :=
  ⟨c6_normalize_amended.1 2 (by norm_num),
   c6_normalize_amended.2.2.1 1 (by norm_num) (by norm_num)⟩

/-- C9.  The DataIKU extraction step is claimed to never raise, but the
try/except of `_extract_dataiku_text` covers only the two `json.loads`
calls: on the response `{"body": "5"}` the body decodes to the number `5`
(not a dict), and `j.get("matches")` then raises an uncaught
`AttributeError` — instead of returning the raw body untouched.  The other
two conjuncts record the graceful paths the claim describes: a string
response is returned as-is, and an undecodable body is returned raw. -/
theorem c9_dataiku_extract_raises :
    extractDataikuText parseStub dumpsStub (Val.obj [("body", Val.str "5")]) =
        .error "AttributeError" ∧
      extractDataikuText parseStub dumpsStub (Val.str "raw") = .ok "raw" ∧
      extractDataikuText (fun _ => none) dumpsStub (Val.obj [("body", Val.str "xx")]) =
        .ok "xx" :=
  ⟨rfl, rfl, rfl⟩

/-- `scoreRow` cannot fail on a record satisfying `idOk`. -/
theorem scoreRow_ok_of_idOk (scen : List (String × Rec)) (simOf : Nat → ℚ) (t : ℚ)
    (i : Nat) (a : Rec) (h : idOk scen a) :
    ∃ row, scoreRow scen simOf t i a = .ok row := by
  rcases h with ⟨sid, sc, hid, hsc⟩
  simp only [scoreRow, hid, hsc]
  split
  · exact ⟨_, rfl⟩
  · exact ⟨_, rfl⟩

/-- `scoreRow` fails on a record violating `idOk`. -/
theorem scoreRow_err_of_not_idOk (scen : List (String × Rec)) (simOf : Nat → ℚ) (t : ℚ)
    (i : Nat) (a : Rec) (h : ¬ idOk scen a) :
    ∃ msg, scoreRow scen simOf t i a = .error msg := by
  cases hid : rget a "id" with
  | none => exact ⟨"KeyError: id", by simp only [scoreRow, hid]⟩
  | some v =>
    cases v with
    | str sid =>
      cases hsc : lfind scen sid with
      | none => exact ⟨"KeyError: " ++ sid, by simp only [scoreRow, hid, hsc]⟩
      | some sc => exact absurd ⟨sid, sc, hid, hsc⟩ h
    | null => exact ⟨"KeyError: id", by simp only [scoreRow, hid]⟩
    | bool b => exact ⟨"KeyError: id", by simp only [scoreRow, hid]⟩
    | num q => exact ⟨"KeyError: id", by simp only [scoreRow, hid]⟩
    | arr l => exact ⟨"KeyError: id", by simp only [scoreRow, hid]⟩
    | obj l => exact ⟨"KeyError: id", by simp only [scoreRow, hid]⟩

/-- C10.  The Similarity Scorer's run is total exactly under the
precondition that every answer record carries a string id with a matching
scenario: under that precondition it returns one result per answer; and as
soon as one answer violates it, the unguarded `scenarios[a["id"]]` lookup
raises `KeyError`, aborting the entire run — whatever answers follow, no
result list is produced. -/
theorem c10_score_run_keyerror :
    (∀ scen simOf (t : ℚ) (answers : List Rec), (∀ a ∈ answers, idOk scen a) →
        ∀ i, ∃ out, scoreRun scen simOf t i answers = .ok out ∧
          out.length = answers.length) ∧
    (∀ scen simOf (t : ℚ) (pre : List Rec) (bad : Rec) (post : List Rec),
        (∀ a ∈ pre, idOk scen a) → ¬ idOk scen bad →
        ∀ i, ∃ msg, scoreRun scen simOf t i (pre ++ bad :: post) = .error msg) := by
  constructor
  · intro scen simOf t answers
    induction answers with
    | nil => intro _ i; exact ⟨[], rfl, rfl⟩
    | cons a rest ih =>
      intro hall i
      rcases scoreRow_ok_of_idOk scen simOf t i a (hall a (by simp)) with ⟨row, hrow⟩
      rcases ih (fun x hx => hall x (by simp [hx])) (i + 1) with ⟨out, hout, hlen⟩
      refine ⟨row :: out, ?_, by simp [hlen]⟩
      simp only [scoreRun, hrow, hout]
  · intro scen simOf t pre bad post hpre hbad
    induction pre with
    | nil =>
      intro i
      rcases scoreRow_err_of_not_idOk scen simOf t i bad hbad with ⟨msg, hmsg⟩
      refine ⟨msg, ?_⟩
      simp only [List.nil_append, scoreRun, hmsg]
    | cons a rest ih =>
      intro i
      rcases scoreRow_ok_of_idOk scen simOf t i a (hpre a (by simp)) with ⟨row, hrow⟩
      rcases ih (fun x hx => hpre x (by simp [hx])) (i + 1) with ⟨msg, hmsg⟩
      refine ⟨msg, ?_⟩
      simp only [List.cons_append, scoreRun, hrow, List.append_eq, hmsg]

/-- Witness for C10 at concrete inputs: a matched answer is scored, an
unmatched answer id aborts the run even though a well-formed answer
follows. -/
theorem c10_score_run_keyerror_witness :
    (∃ out, scoreRun c10scen (fun _ => 1) 1 0 [[("id", Val.str "Q_1")]] = .ok out ∧
       out.length = 1) ∧
      ∃ msg, scoreRun c10scen (fun _ => 1) 1 0
        ([] ++ [("id", Val.str "missing")] :: [[("id", Val.str "Q_1")]]) = .error msg :=
  ⟨c10_score_run_keyerror.1 c10scen (fun _ => 1) 1 [[("id", Val.str "Q_1")]]
      (by
        intro a ha
        simp only [List.mem_singleton] at ha
        exact ⟨"Q_1", [("reference", Val.str "4"), ("prompt", Val.str "2+2?")],
          by subst ha; rfl, rfl⟩) 0,
   c10_score_run_keyerror.2 c10scen (fun _ => 1) 1 [] [("id", Val.str "missing")]
      [[("id", Val.str "Q_1")]] (by intro a ha; simp at ha)
      (by
        rintro ⟨sid, sc, hid, hsc⟩
        have : sid = "missing" := by
          have h' := hid
          simp [rget, lfind, List.find?] at h'
          exact h'.symm
        rw [this] at hsc
        simp [lfind, c10scen, List.find?] at hsc) 0⟩

/-- A sorted list with at least `n` elements satisfying `p` (where `p` is
downward-closed against the sort order) has only `p`-elements among its first
`n`. -/
theorem sorted_take_countP {α : Type} (p : α → Bool) (le : α → α → Bool)
    (hcomp : ∀ a b, p a = false → le a b = true → p b = false) :
    ∀ (n : Nat) (s : List α), List.Pairwise (fun a b => le a b = true) s →
      n ≤ s.countP p → ∀ x ∈ s.take n, p x = true := by
  intro n s
  induction s generalizing n with
  | nil => intro _ _ x hx; simp at hx
  | cons a t ih =>
    intro hpair hcount x hx
    have hpa : p a = true := by
      by_contra hpaf
      have hpaf' : p a = false := by
        cases hpa2 : p a
        · rfl
        · exact absurd hpa2 hpaf
      have hall : ∀ b ∈ t, p b = false := fun b hb =>
        hcomp a b hpaf' ((List.pairwise_cons.mp hpair).1 b hb)
      have hz : (a :: t).countP p = 0 := by
        rw [List.countP_cons_of_neg _ _ (by simp [hpaf'])]
        exact List.countP_eq_zero.mpr (fun b hb => by simp [hall b hb])
      cases n with
      | zero => simp at hx
      | succ m =>
        rw [hz] at hcount
        exact absurd hcount (by omega)
    cases n with
    | zero => simp at hx
    | succ m =>
      rw [List.take_succ_cons] at hx
      rcases List.mem_cons.mp hx with h | h
      · rw [h]; exact hpa
      · refine ih m (List.pairwise_cons.mp hpair).2 ?_ x h
        rw [List.countP_cons_of_pos _ _ hpa] at hcount
        omega

unseal List.merge List.mergeSort in
/-- C3 counterexample.  The claim says that among 15 rows of which 3 lack a
similarity score, the 3 scoreless rows never appear in the worst-10 when at
least 10 scored rows exist.  But the sort key maps a missing similarity to
`1.0`, the same key as a scored row with similarity exactly `1.0` (the spec's
own end-to-end example produces such rows), and Python's `sorted` is stable:
with 3 scoreless rows listed first and 12 rows scored at `1.0`, all 15 rows
tie and the worst-10 keeps original order — all 3 scoreless rows appear in
it. -/
theorem c3_worst_rows_counterexample :
    cexRows.length = 15 ∧
      cexRows.countP hasNumSim = 12 ∧
      (worstRows cexRows 10).countP (fun r => !(hasNumSim r)) = 3 :=
  ⟨rfl, rfl, rfl⟩

/-- C3 (amended).  The worst-10 selection sorts rows by similarity ascending
with a missing similarity treated as `1.0` and takes the first 10; whenever
at least 10 rows have similarity strictly below `1.0`, every row of the
worst-10 is such a row — in particular no scoreless row appears.  (Scoreless
rows can still surface when scored rows tie at exactly `1.0`, because the
stable sort cannot separate them.) -/
theorem c3_worst_rows_amended (rows : List Rec)
    (h : 10 ≤ rows.countP (fun r => decide (simKey r < 1))) :
    ∀ r ∈ worstRows rows 10, simKey r < 1 ∧ hasNumSim r = true := by
  intro r hr
  have htrans : ∀ a b c : Rec, decide (simKey a ≤ simKey b) = true →
      decide (simKey b ≤ simKey c) = true → decide (simKey a ≤ simKey c) = true := by
    intro a b c h1 h2
    simp only [decide_eq_true_eq] at h1 h2 ⊢
    exact le_trans h1 h2
  have htotal : ∀ a b : Rec,
      (decide (simKey a ≤ simKey b) || decide (simKey b ≤ simKey a)) = true := by
    intro a b
    rcases le_total (simKey a) (simKey b) with h1 | h1 <;> simp [h1]
  have hsorted := List.sorted_mergeSort htrans htotal rows
  have hperm := List.mergeSort_perm rows (fun a b => decide (simKey a ≤ simKey b))
  have hcount : 10 ≤ (rows.mergeSort (fun a b => decide (simKey a ≤ simKey b))).countP
      (fun r => decide (simKey r < 1)) := by
    rw [hperm.countP_eq]
    exact h
  have hp := sorted_take_countP (fun r => decide (simKey r < 1))
      (fun a b => decide (simKey a ≤ simKey b))
      (by
        intro a b hpa hle
        simp only [decide_eq_true_eq] at hle
        simp only [decide_eq_false_iff_not, not_lt] at hpa ⊢
        exact le_trans hpa hle)
      10 _ hsorted hcount r hr
  have h1 : simKey r < 1 := by simpa using hp
  exact ⟨h1, hasNumSim_of_simKey_lt_one r h1⟩

unseal List.merge List.mergeSort in
/-- Witness for C3 (amended): applied to ten rows scored at similarity `0`,
at a member of their worst-10. -/
theorem c3_worst_rows_amended_witness : simKey zRow < 1 ∧ hasNumSim zRow = true := by
  have hmem : zRow ∈ worstRows zeroSimRows 10 := by
    have he : worstRows zeroSimRows 10 = List.replicate 10 zRow := rfl
    rw [he]
    exact List.mem_replicate.mpr ⟨by norm_num, rfl⟩
  exact c3_worst_rows_amended zeroSimRows (by rfl) zRow hmem

/-- C4 counterexample.  The claim says the merge lookup key normalization
lower-cases.  The source's `_norm` does not: the XLSX prompt `"A"` and the
Result prompt `"a"` agree under the claim's lowercase normalization, so the
claim predicts a hit (the `metric_1` column would be merged), but the code's
case-sensitive normalization misses and provably leaves the Result rows
untouched. -/
theorem c4_lowercase_counterexample :
    claimNormLower "A" = claimNormLower "a" ∧
      ¬ normText "A" = normText "a" ∧
      mergeRun [] c4df "Input" c4rows = .ok c4rows :=
  ⟨rfl, by decide, rfl⟩

/-- C4 (amended).  The External Metrics Merge builds its lookup keyed by
normalized prompt text — CR/LF replaced by spaces, trimmed, whitespace runs
collapsed, case preserved (NO lowercasing) — every lookup entry being the
normalized (non-empty) prompt of some spreadsheet row with that row's metric
payload; each Result is matched by exact normalized-string equality only,
falling back to the originating Scenario's prompt when the Result's own
prompt is falsy; and on a miss the Result is left untouched. -/
theorem c4_external_merge_amended :
    (∀ (df : DFrame) (promptCol : String) (e : String × List (String × Val)),
        e ∈ buildLookup df promptCol →
        ¬ e.1 = "" ∧ ∃ row ∈ df.cells,
          e = (normVal (cellGet row promptCol), payloadOf df.columns row)) ∧
    (∀ scen lookup (row : Rec), lfind lookup (mergeKey scen row) = none →
        mergeRow scen lookup row = row) ∧
    (∀ scen (row : Rec), truthy ((rget row "prompt").getD .null) = false →
        mergeKey scen row =
          normVal (pyOr ((rget (mergeScOf scen row) "prompt").getD .null) (.str ""))) ∧
    normText "A" = "A" ∧ normText " a \r\n b " = "a b" := by
  refine ⟨?_, ?_, ?_, rfl, rfl⟩
  · intro df promptCol e he
    rcases buildLookup_mem_aux df.columns promptCol df.cells [] e he with h0 | ⟨row, hrow, he2, hne⟩
    · simp at h0
    · exact ⟨by rw [he2]; exact hne, row, hrow, he2⟩
  · intro scen lookup row hl
    simp [mergeRow, hl]
  · intro scen row h
    simp [mergeKey, pyOr, h]

/-- Witness for C4 (amended): a miss leaves the concrete row untouched. -/
theorem c4_external_merge_amended_witness :
    mergeRow [] (buildLookup c4df "Input") c4row = c4row :=
  c4_external_merge_amended.2.1 [] (buildLookup c4df "Input") c4row rfl

/-- The nearest rank `(19n + 19) / 20` (in `ℕ`) is exactly `⌈0.95 · n⌉`. -/
theorem natCeilRank_eq_ceil (n : ℕ) :
    (((19 * n + 19) / 20 : ℕ) : ℤ) = ⌈(95 / 100 : ℚ) * n⌉ := by
  have hdm := Nat.div_add_mod (19 * n + 19) 20
  have hmlt : (19 * n + 19) % 20 < 20 := Nat.mod_lt _ (by norm_num)
  set z := (19 * n + 19) / 20 with hz
  set m := (19 * n + 19) % 20 with hm
  have h1 : 20 * z ≤ 19 * n + 19 := by omega
  have h2 : 19 * n ≤ 20 * z := by omega
  rw [eq_comm, Int.ceil_eq_iff]
  have hrw : (95 / 100 : ℚ) * n = 19 * n / 20 := by ring
  constructor
  · have h1q : (20 : ℚ) * z ≤ 19 * n + 19 := by exact_mod_cast h1
    rw [hrw]
    push_cast
    linarith
  · have h2q : (19 : ℚ) * n ≤ 20 * z := by exact_mod_cast h2
    rw [hrw]
    push_cast
    linarith

unseal List.merge List.mergeSort in
/-- C7.  For every non-empty list of n numbers, `_p95` returns the
`⌈0.95·n⌉`-th smallest value — the element at (1-indexed, clamped) rank
`min ((19n+19)/20) n` of any sorted rearrangement — where `(19n+19)/20` (in
`ℕ`) is exactly `⌈0.95·n⌉` (second conjunct); for the empty list it returns
none; and for `[1,2,3,4,5]` it returns `5`. -/
theorem c7_p95_nearest_rank :
    (∀ (l s : List ℚ), ¬ l = [] → s.Perm l → s.Sorted (· ≤ ·) →
        ∃ h : min ((19 * l.length + 19) / 20 - 1) (l.length - 1) < s.length,
          p95 l = some (s.get ⟨min ((19 * l.length + 19) / 20 - 1) (l.length - 1), h⟩)) ∧
    (∀ n : ℕ, (((19 * n + 19) / 20 : ℕ) : ℤ) = ⌈(95 / 100 : ℚ) * n⌉) ∧
    p95 [] = none ∧
    p95 [1, 2, 3, 4, 5] = some 5 := by
  refine ⟨?_, natCeilRank_eq_ceil, rfl, ?_⟩
  · intro l s hne hperm hsorted
    have hmt : ∀ a b c : ℚ, decide (a ≤ b) = true → decide (b ≤ c) = true →
        decide (a ≤ c) = true := by
      intro a b c h1 h2
      simp only [decide_eq_true_eq] at h1 h2 ⊢
      exact le_trans h1 h2
    have hto : ∀ a b : ℚ, (decide (a ≤ b) || decide (b ≤ a)) = true := by
      intro a b
      rcases le_total a b with h1 | h1 <;> simp [h1]
    have hsort2 : (l.mergeSort (fun a b => decide (a ≤ b))).Sorted (· ≤ ·) :=
      (List.sorted_mergeSort hmt hto l).imp (fun hab => by simpa using hab)
    have hperm2 : (l.mergeSort (fun a b => decide (a ≤ b))).Perm s :=
      (List.mergeSort_perm l _).trans hperm.symm
    have heq : l.mergeSort (fun a b => decide (a ≤ b)) = s :=
      List.eq_of_perm_of_sorted hperm2 hsort2 hsorted
    have hlen : s.length = l.length := hperm.length_eq
    have hpos : 0 < l.length := List.length_pos.mpr hne
    have hidx : min ((19 * l.length + 19) / 20 - 1) (l.length - 1) < s.length := by
      rw [hlen]
      omega
    refine ⟨hidx, ?_⟩
    have hie : l.isEmpty = false := by
      cases l
      · exact absurd rfl hne
      · rfl
    simp only [p95, hie, Bool.false_eq_true, if_false]
    rw [heq]
    conv_lhs => rw [hlen]
    rw [List.getElem?_eq_getElem hidx]
    simp [List.get_eq_getElem]
  · rfl

/-- Witness for C7 applied at the concrete sorted list `[1,2,3,4,5]`. -/
theorem c7_p95_nearest_rank_witness :
    ∃ h : min ((19 * ([1, 2, 3, 4, 5] : List ℚ).length + 19) / 20 - 1)
        (([1, 2, 3, 4, 5] : List ℚ).length - 1) < ([1, 2, 3, 4, 5] : List ℚ).length,
      p95 [1, 2, 3, 4, 5] = some (([1, 2, 3, 4, 5] : List ℚ).get
        ⟨min ((19 * ([1, 2, 3, 4, 5] : List ℚ).length + 19) / 20 - 1)
          (([1, 2, 3, 4, 5] : List ℚ).length - 1), h⟩) :=
  c7_p95_nearest_rank.1 [1, 2, 3, 4, 5] [1, 2, 3, 4, 5] (by simp) (List.Perm.refl _)
    (by decide)

/-- The scenario component of the from_expected_and_answer.py fold, relative
to an arbitrary accumulator: already-kept scenarios stay, and each kept row
is appended with the sequential id `Q_<position+1>`. -/
theorem buildQ_fst_aux (rows : List QRow) :
    ∀ (sc : List Scenario) (rs : List Rec),
      (rows.foldl buildQStep (sc, rs)).1 =
        sc ++ (List.enumFrom sc.length
            (rows.filter (fun row => !(strip row.prompt == "")))).map
          (fun p => ⟨"Q_" ++ toString (p.1 + 1), strip p.2.prompt, strip p.2.expected⟩) := by
  induction rows with
  | nil => intro sc rs; simp
  | cons row rest ih =>
    intro sc rs
    rw [List.foldl_cons]
    by_cases h : (strip row.prompt == "") = true
    · have hstep : buildQStep (sc, rs) row = (sc, rs) := by
        simp only [buildQStep, h, if_true]
      rw [hstep, ih]
      simp [List.filter_cons, h]
    · have hstep : buildQStep (sc, rs) row =
          (sc ++ [⟨"Q_" ++ toString (sc.length + 1), strip row.prompt, strip row.expected⟩],
           rs ++ [[("id", Val.str ("Q_" ++ toString (sc.length + 1))),
                   ("answer", Val.str (strip row.answer))]]) := by
        simp only [buildQStep, h]
        simp
      rw [hstep, ih]
      simp only [List.filter_cons, h, Bool.not_false, if_true,
        List.length_append, List.length_cons, List.length_nil]
      rw [show List.enumFrom sc.length
            (row :: rest.filter (fun r => !(strip r.prompt == ""))) =
          (sc.length, row) :: List.enumFrom (sc.length + 1)
            (rest.filter (fun r => !(strip r.prompt == ""))) from rfl]
      simp [List.append_assoc]

/-- C8 counterexample.  The claim says the Scenario Builder skips every row
with an empty or whitespace-only prompt in both id modes; but
method_1_xlsx_to_json.py (the `MCP_<rawid>` mode) skips nothing: on the
claim's own two input rows it emits TWO scenarios, the second with an empty
prompt. -/
theorem c8_scenario_builder_counterexample :
    (buildScenariosMCP "S1" mcpRows2).length = 2 ∧
      ((buildScenariosMCP "S1" mcpRows2)[1]?).map (fun r => rget r "prompt") =
        some (some (Val.str "")) :=
  ⟨rfl, rfl⟩

/-- C8 (amended).  The from_expected_and_answer.py builder (synthetic
`Q_<n>` ids) skips every row whose stripped prompt is empty and assigns
sequential ids `Q_1, Q_2, …` in kept-row order; on the example rows it emits
exactly one Scenario with id `Q_1`.  The method_1_xlsx_to_json.py builder
(`MCP_<rawid>` ids) skips nothing: it emits one scenario per input row,
empty prompts included. -/
theorem c8_scenario_builder_amended :
    (∀ rows : List QRow, buildScenariosQ rows =
        ((rows.filter (fun row => !(strip row.prompt == ""))).enum).map
          (fun p => ⟨"Q_" ++ toString (p.1 + 1), strip p.2.prompt, strip p.2.expected⟩)) ∧
    (∀ sheet (rows : List M1Row), (buildScenariosMCP sheet rows).length = rows.length) ∧
    buildScenariosQ [⟨"2+2?", "4", ""⟩, ⟨"", "x", ""⟩] = [⟨"Q_1", "2+2?", "4"⟩] := by
  refine ⟨?_, ?_, rfl⟩
  · intro rows
    have h := buildQ_fst_aux rows [] []
    simpa [buildScenariosQ, buildQ] using h
  · intro sheet rows
    simp [buildScenariosMCP]

end EvalFW
